import Mathlib

/-!
Shallow embedding of the watch-now concurrency/state core:
the monitor data model (`internal/monitors/interface.go`), the REST probe
(`internal/monitors/rest.go`), the command probe (`internal/monitors/quality.go`),
and the state store with its pub/sub fan-out (`internal/core`, the file holding
`StateStore`).  Go maps on string keys are modelled as association lists,
Go channels as bounded queues with a closed flag held in an indexed heap,
and the golangci-lint mutex as a labelled transition system.
-/

namespace WatchNow

/-! ### Data model: `internal/monitors/interface.go` -/

/-- The `Status` enum: ok | warn | fail | info. -/
inductive Status where
  | ok
  | warn
  | fail
  | info
deriving DecidableEq, Repr

/-- The `MonitorType` enum: rest | grpc | quality. -/
inductive MonitorType where
  | rest
  | grpc
  | quality
deriving DecidableEq, Repr

/-- Values stored in `Result.Metadata` (`map[string]interface{}`) — the code only
ever stores strings and integers there. -/
inductive MetaValue where
  | str (s : String)
  | int (n : Int)
deriving DecidableEq, Repr

/-- A Go `map[string]V` modelled as an association list without duplicate keys. -/
abbrev GoMap (V : Type) := List (String × V)

/-- Go map read `m[k]` (the `ok` flavour). -/
def mapGet {V : Type} (m : GoMap V) (k : String) : Option V :=
  match m with
  | [] => none
  | (k', v') :: rest => if k' = k then some v' else mapGet rest k

/-- Go map write `m[k] = v`: replaces the binding for `k` or appends a new one. -/
def mapSet {V : Type} (m : GoMap V) (k : String) (v : V) : GoMap V :=
  match m with
  | [] => [(k, v)]
  | (k', v') :: rest => if k' = k then (k, v) :: rest else (k', v') :: mapSet rest k v

/-- A well-formed Go map image: no duplicate keys (every map built by
`mapSet` from the empty map has this shape). -/
def keysNodup {V : Type} (m : GoMap V) : Prop :=
  (m.map Prod.fst).Nodup

/-- The `Result` struct.  `metadata = none` models a nil Go map (never allocated);
`timestamp` and `duration` are abstract clock readings supplied by the caller. -/
structure Result where
  name : String
  type : MonitorType
  status : Status
  message : String
  metadata : Option (GoMap MetaValue)
  timestamp : Nat
  duration : Nat
deriving DecidableEq, Repr

/-- Read a key out of a `Result`'s metadata (nil map has no keys). -/
def metaGet (m : Option (GoMap MetaValue)) (k : String) : Option MetaValue :=
  match m with
  | none => none
  | some l => mapGet l k

/-! ### REST probe: `internal/monitors/rest.go` -/

/-- The `RESTMonitor` struct.  `timeoutRepr` is the rendering of `m.timeout`
used by `fmt` (`m.timeout.String()` / `%v`). -/
structure RESTMonitor where
  name : String
  url : String
  health : String
  timeoutRepr : String
deriving DecidableEq, Repr

/-- Constructor `NewRESTMonitor`: defaults the health path to "/health" when empty. -/
def NewRESTMonitor (name url health timeoutRepr : String) : RESTMonitor :=
  { name := name
    url := url
    health := if health = "" then "/health" else health
    timeoutRepr := timeoutRepr }

/-- Outcome of the HTTP round trip inside `RESTMonitor.Check`:
request construction failed, `client.Do` failed with the check context's
deadline exceeded, `client.Do` failed otherwise, or a response arrived.
`errRepr` is the `%v` rendering of the Go error. -/
inductive HTTPOutcome where
  | reqBuildErr (errRepr : String)
  | timeoutErr
  | transportErr (errRepr : String)
  | response (statusCode : Nat)
deriving DecidableEq, Repr

/-- The body of `RESTMonitor.Check`.  `durRepr` renders `duration.Round(time.Millisecond)`;
`ts`/`dur` are the clock readings for the `Timestamp`/`Duration` fields. -/
def RESTMonitor.check (m : RESTMonitor) (out : HTTPOutcome) (ts dur : Nat)
    (durRepr : String) : Result :=
  let fullURL := m.url ++ m.health
  match out with
  | .reqBuildErr e =>
      { name := m.name, type := .rest, status := .fail
        message := "Failed to create request: " ++ e
        metadata := none, timestamp := ts, duration := dur }
  | .timeoutErr =>
      { name := m.name, type := .rest, status := .fail
        message := "Request timed out after " ++ m.timeoutRepr
        metadata := some (mapSet (mapSet [] "url" (.str fullURL))
          "timeout" (.str m.timeoutRepr))
        timestamp := ts, duration := dur }
  | .transportErr e =>
      { name := m.name, type := .rest, status := .fail
        message := "Request failed: " ++ e
        metadata := some (mapSet (mapSet [] "url" (.str fullURL))
          "timeout" (.str m.timeoutRepr))
        timestamp := ts, duration := dur }
  | .response code =>
      let meta := mapSet (mapSet (mapSet [] "url" (.str fullURL))
        "timeout" (.str m.timeoutRepr)) "status_code" (.int code)
      if 200 ≤ code ∧ code < 400 then
        { name := m.name, type := .rest, status := .ok
          message := "HTTP " ++ toString code ++ " in " ++ durRepr
          metadata := some meta, timestamp := ts, duration := dur }
      else if 400 ≤ code ∧ code < 500 then
        { name := m.name, type := .rest, status := .warn
          message := "HTTP " ++ toString code ++ " (client error) in " ++ durRepr
          metadata := some meta, timestamp := ts, duration := dur }
      else
        { name := m.name, type := .rest, status := .fail
          message := "HTTP " ++ toString code ++ " (server error) in " ++ durRepr
          metadata := some meta, timestamp := ts, duration := dur }

/-! ### Command probe: `internal/monitors/quality.go` -/

/-- Substring search over character lists, used to model `strings.Contains`. -/
def goContainsAux (s sub : List Char) : Bool :=
  match s with
  | [] => sub.isEmpty
  | _ :: rest => sub.isPrefixOf s || goContainsAux rest sub

/-- Go `strings.Contains(s, sub)` on the character sequence of the strings. -/
def goContains (s sub : String) : Bool :=
  goContainsAux s.data sub.data

/-- The `QualityMonitor` struct. -/
structure QualityMonitor where
  name : String
  command : String
  args : List String
  timeoutRepr : String
deriving DecidableEq, Repr

/-- The check `QualityMonitor.isGolangciLint`: command contains "golangci-lint", or any
argument contains "lint". -/
def QualityMonitor.isGolangciLint (m : QualityMonitor) : Bool :=
  goContains m.command "golangci-lint" || m.args.any (fun a => goContains a "lint")

/-- Outcome of `cmd.Run()` inside `QualityMonitor.Check`: clean exit,
non-zero exit (`*exec.ExitError`, carrying the exit code), some other error
(e.g. spawn failure), or an error with the check context's deadline exceeded.
Captured stdout/stderr ride along; `errRepr` renders the Go error. -/
inductive CmdOutcome where
  | success (stdout stderr : String)
  | exitErr (code : Int) (errRepr stdout stderr : String)
  | otherErr (errRepr stdout stderr : String)
  | timeoutErr (stdout stderr : String)
deriving DecidableEq, Repr

/-- Go `strings.Join(args, " ")`. -/
def goJoin (args : List String) : String :=
  match args with
  | [] => ""
  | [a] => a
  | a :: rest => a ++ " " ++ goJoin rest

/-- The body of `QualityMonitor.Check`.  `durRepr` renders `duration.Round(time.Millisecond)`. -/
def QualityMonitor.check (m : QualityMonitor) (out : CmdOutcome) (ts dur : Nat)
    (durRepr : String) : Result :=
  let baseMeta : GoMap MetaValue :=
    mapSet [] "command" (.str (m.command ++ " " ++ goJoin m.args))
  match out with
  | .timeoutErr _ _ =>
      { name := m.name, type := .quality, status := .fail
        message := "Command timed out after " ++ m.timeoutRepr
        metadata := some baseMeta, timestamp := ts, duration := dur }
  | .exitErr code errRepr _ stderr =>
      let meta1 := if stderr.utf8ByteSize > 0
        then mapSet baseMeta "stderr" (.str stderr) else baseMeta
      let meta2 := mapSet meta1 "exit_code" (.int code)
      { name := m.name, type := .quality, status := .fail
        message := "Command failed: " ++ errRepr
        metadata := some meta2, timestamp := ts, duration := dur }
  | .otherErr errRepr _ stderr =>
      let meta1 := if stderr.utf8ByteSize > 0
        then mapSet baseMeta "stderr" (.str stderr) else baseMeta
      { name := m.name, type := .quality, status := .fail
        message := "Command failed: " ++ errRepr
        metadata := some meta1, timestamp := ts, duration := dur }
  | .success stdout _ =>
      let meta1 := if stdout.utf8ByteSize > 0 ∧ stdout.utf8ByteSize < 1024
        then mapSet baseMeta "output" (.str stdout) else baseMeta
      { name := m.name, type := .quality, status := .ok
        message := "Check passed in " ++ durRepr
        metadata := some meta1, timestamp := ts, duration := dur }

/-! ### State store: `internal/core` (`StateStore`)

Channels are bounded queues with a `closed` flag, held in indexed heaps
(one heap per element type); a channel value in Go is a reference, modelled
here as an index into the heap.  `select { case ch <- v: default: }` becomes
`Chan.trySend`, which faults (`none`) on a closed channel — a send on a
closed channel panics in Go even under `select`. -/

/-- A Go channel: pending buffer, capacity, closed flag. -/
structure Chan (α : Type) where
  buf : List α
  cap : Nat
  closed : Bool
deriving DecidableEq, Repr

/-- Non-blocking send (`select`/`default`): panic (`none`) when closed,
enqueue when there is room, silently drop otherwise. -/
def Chan.trySend {α : Type} (c : Chan α) (a : α) : Option (Chan α) :=
  if c.closed then none
  else if c.buf.length < c.cap then some { c with buf := c.buf ++ [a] }
  else some c

/-- Go `close(ch)`: faults when the channel is already closed. -/
def Chan.closeChan {α : Type} (c : Chan α) : Option (Chan α) :=
  if c.closed then none else some { c with closed := true }

/-- The `StateUpdate` event `{Name, Result}`. -/
structure StateUpdate where
  name : String
  result : Result
deriving DecidableEq, Repr

/-- A `HistoryEntry`: a Result with its captured-at timestamp. -/
structure HistoryEntry where
  result : Result
  timestamp : Nat
deriving DecidableEq, Repr

/-- The `StateStore` struct proper: current results, per-name history, and the
watcher list (indices into the watcher-channel heap, in registration order). -/
structure StateStore where
  results : GoMap Result
  history : GoMap (List HistoryEntry)
  watchers : List Nat
deriving DecidableEq, Repr

/-- Snapshot type delivered to `Subscribe` callers: a copy of the results map. -/
abbrev Snapshot := GoMap Result

/-- The store together with the channel heaps and the forwarder goroutines
spawned by `Subscribe` (pairs of watcher-channel id and subscriber-channel id). -/
structure Sys where
  store : StateStore
  wheap : List (Chan StateUpdate)
  sheap : List (Chan Snapshot)
  forwarders : List (Nat × Nat)
deriving DecidableEq, Repr

/-- Result of `NewStateStore()` wired into an initial system with the given
subscriber-channel heap (channels the adapters allocated). -/
def newSys (sheap : List (Chan Snapshot)) : Sys :=
  { store := { results := [], history := [], watchers := [] }
    wheap := [], sheap := sheap, forwarders := [] }

/-- The history-truncation step of `Update`: keep the last 100 entries. -/
def truncHist (l : List HistoryEntry) : List HistoryEntry :=
  if l.length > 100 then l.drop (l.length - 100) else l

/-- The last `n` elements of a list (what the history cap keeps). -/
def takeLast {α : Type} (n : Nat) (l : List α) : List α :=
  l.drop (l.length - n)

/-- The loop `for _, watcher := range s.watchers { select ... }`:
non-blocking send of the update to each watcher channel in order. -/
def notifyAll (wheap : List (Chan StateUpdate)) (ids : List Nat)
    (u : StateUpdate) : Option (List (Chan StateUpdate)) :=
  match ids with
  | [] => some wheap
  | i :: rest =>
      match wheap[i]? with
      | none => none
      | some c =>
          match c.trySend u with
          | none => none
          | some c' => notifyAll (wheap.set i c') rest u

/-- The body of `StateStore.Update`: store the latest result, append to the (100-capped)
history, notify every watcher without blocking.  `now` is `time.Now()`. -/
def Sys.update (sys : Sys) (r : Result) (now : Nat) : Option Sys :=
  let results' := mapSet sys.store.results r.name r
  let hist := (mapGet sys.store.history r.name).getD []
  let hist' := truncHist (hist ++ [{ result := r, timestamp := now }])
  let history' := mapSet sys.store.history r.name hist'
  match notifyAll sys.wheap sys.store.watchers { name := r.name, result := r } with
  | none => none
  | some wheap' =>
      some { sys with
        store := { sys.store with results := results', history := history' }
        wheap := wheap' }

/-- The body of `StateStore.Get(name)`. -/
def Sys.get (sys : Sys) (name : String) : Option Result :=
  mapGet sys.store.results name

/-- The copy loop body of `GetAll` (and the value a fresh Go map takes after
inserting every binding of `m` in order). -/
def copyLoop (m acc : Snapshot) : Snapshot :=
  match m with
  | [] => acc
  | (k, v) :: rest => copyLoop rest (mapSet acc k v)

/-- The body of `StateStore.GetAll()`: the copy loop `for k, v := range s.results`
rebuilds the map binding by binding. -/
def Sys.getAll (sys : Sys) : Snapshot :=
  copyLoop sys.store.results []

/-- The body of `StateStore.Subscribe(ch)`: registers a fresh watcher channel of capacity
10 and spawns a forwarder goroutine for `(watcher, ch)`. -/
def Sys.subscribe (sys : Sys) (chId : Nat) : Sys :=
  let wid := sys.wheap.length
  { sys with
    wheap := sys.wheap ++ [{ buf := [], cap := 10, closed := false }]
    store := { sys.store with watchers := sys.store.watchers ++ [wid] }
    forwarders := sys.forwarders ++ [(wid, chId)] }

/-- One iteration of a `Subscribe` forwarder goroutine `(wid, chId)`:
take one pending update off the watcher channel, then try a non-blocking send
of `s.GetAll()` (evaluated now) to the subscriber channel; a send on a closed
subscriber channel panics, is swallowed by `recover`, and kills the forwarder. -/
def Sys.forwarderStep (sys : Sys) (wid chId : Nat) : Option Sys :=
  match sys.wheap[wid]? with
  | none => none
  | some w =>
      match w.buf with
      | [] => some sys
      | _ :: rest =>
          let sys1 := { sys with wheap := sys.wheap.set wid { w with buf := rest } }
          match sys1.sheap[chId]? with
          | none => none
          | some c =>
              if c.closed then
                some { sys1 with
                  forwarders := sys1.forwarders.filter (fun f => f ≠ (wid, chId)) }
              else if c.buf.length < c.cap then
                some { sys1 with
                  sheap := sys1.sheap.set chId { c with buf := c.buf ++ [sys1.getAll] } }
              else some sys1

/-- The body of `StateStore.Unsubscribe(ch)`: close the *last* watcher in the list
(the code's comment says this LIFO choice is "simplified"), then close the
given subscriber channel. -/
def Sys.unsubscribe (sys : Sys) (chId : Nat) : Option Sys :=
  let afterWatcher : Option Sys :=
    match sys.store.watchers.getLast? with
    | none => some sys
    | some lastId =>
        match sys.wheap[lastId]? with
        | none => none
        | some c =>
            match c.closeChan with
            | none => none
            | some c' =>
                some { sys with
                  store := { sys.store with watchers := sys.store.watchers.dropLast }
                  wheap := sys.wheap.set lastId c' }
  match afterWatcher with
  | none => none
  | some sys1 =>
      match sys1.sheap[chId]? with
      | none => none
      | some c =>
          match c.closeChan with
          | none => none
          | some c' => some { sys1 with sheap := sys1.sheap.set chId c' }

/-- Every watcher id in the store's list points at an open channel in the heap. -/
def watchersOk (sys : Sys) : Bool :=
  sys.store.watchers.all (fun i =>
    match sys.wheap[i]? with
    | some c => !c.closed
    | none => false)

/-- A sequence of `Update` calls, oldest first, each with its `time.Now()`. -/
def Sys.applyUpdates (sys : Sys) (us : List (Result × Nat)) : Option Sys :=
  match us with
  | [] => some sys
  | (r, t) :: rest =>
      match sys.update r t with
      | none => none
      | some sys' => sys'.applyUpdates rest

/-! ### Reference model of Go map values, for the `GetAll` aliasing claim

A Go map value is a reference into a heap of map objects; `GetAll` allocates a
fresh object and copies the store's bindings into it, so the returned reference
never aliases the store's internal map. -/

/-- Heap of Go map objects; a map value is an index into `maps`. -/
structure MapHeap where
  maps : List Snapshot
deriving DecidableEq, Repr

/-- The store's side of the reference model: which heap object holds
`s.results`. -/
structure StoreRef where
  resultsRef : Nat
deriving DecidableEq, Repr

/-- Dereference a map value. -/
def heapRead (h : MapHeap) (r : Nat) : Snapshot :=
  (h.maps[r]?).getD []

/-- Mutate the map object behind a reference (models any sequence of caller
writes/deletes on a returned map: the object takes an arbitrary new value). -/
def heapWrite (h : MapHeap) (r : Nat) (m : Snapshot) : MapHeap :=
  { maps := h.maps.set r m }

/-- The body of `GetAll` in the reference model: allocate a fresh map object, run the copy
loop into it, return the heap and the fresh reference. -/
def getAllRef (h : MapHeap) (s : StoreRef) : MapHeap × Nat :=
  ({ maps := h.maps ++ [copyLoop (heapRead h s.resultsRef) []] }, h.maps.length)

/-- The body of `Get(name)` in the reference model: read through the store's reference. -/
def getRef (h : MapHeap) (s : StoreRef) (name : String) : Option Result :=
  mapGet (heapRead h s.resultsRef) name

/-! ### The golangci-lint mutex: `internal/monitors/quality.go`

`QualityMonitor.Check` takes `golangciLintMutex` before running the command and
releases it afterwards, iff `isGolangciLint()`.  Modelled as a transition system
over the phases of a fixed set of concurrently dispatched checks. -/

/-- Phase of one dispatched `Check` call: before the command, running it,
or finished. -/
inductive Phase where
  | idle
  | running
  | done
deriving DecidableEq, Repr

/-- Global state: the monitors, each call's phase, and who holds
`golangciLintMutex`. -/
structure LintSys where
  mons : List QualityMonitor
  phase : List Phase
  lockHolder : Option Nat
deriving DecidableEq, Repr

/-- Whether check `i` is identified as golangci-lint (none: no such check). -/
def taggedAt (s : LintSys) (i : Nat) : Option Bool :=
  s.mons[i]?.map QualityMonitor.isGolangciLint

/-- Interleaving semantics of `QualityMonitor.Check` around the command run:
a tagged check must acquire the free mutex to start and releases it when done;
an untagged check starts and finishes regardless of the mutex. -/
inductive LintStep : LintSys → LintSys → Prop where
  | startLocked (s : LintSys) (i : Nat)
      (hp : s.phase[i]? = some .idle) (ht : taggedAt s i = some true)
      (hfree : s.lockHolder = none) :
      LintStep s { s with phase := s.phase.set i .running, lockHolder := some i }
  | startFree (s : LintSys) (i : Nat)
      (hp : s.phase[i]? = some .idle) (ht : taggedAt s i = some false) :
      LintStep s { s with phase := s.phase.set i .running }
  | finishLocked (s : LintSys) (i : Nat)
      (hp : s.phase[i]? = some .running) (ht : taggedAt s i = some true)
      (hheld : s.lockHolder = some i) :
      LintStep s { s with phase := s.phase.set i .done, lockHolder := none }
  | finishFree (s : LintSys) (i : Nat)
      (hp : s.phase[i]? = some .running) (ht : taggedAt s i = some false) :
      LintStep s { s with phase := s.phase.set i .done }

/-- One dispatcher tick fans out all checks: all start idle, mutex free. -/
def lintInit (mons : List QualityMonitor) : LintSys :=
  { mons := mons, phase := List.replicate mons.length .idle, lockHolder := none }

/-- States reachable during a tick. -/
def LintReachable (mons : List QualityMonitor) (s : LintSys) : Prop :=
  Relation.ReflTransGen LintStep (lintInit mons) s

/-- Lock invariant of the golangci-lint mutex: a tagged check that is running
holds the mutex. -/
def LintInv (s : LintSys) : Prop :=
  ∀ i, taggedAt s i = some true → s.phase[i]? = some .running →
    s.lockHolder = some i

/-! ### Concrete fixtures used by witnesses and counterexamples -/

/-- A concrete Result carrying only a name and a timestamp. -/
def demoResult (name : String) (k : Nat) : Result :=
  { name := name, type := .quality, status := .ok, message := "m"
    metadata := none, timestamp := k, duration := 1 }

/-- A system with two live subscriptions (subscriber channels 0 and 1,
capacity 1 each). -/
def demoSub2 : Sys :=
  ((newSys [{ buf := [], cap := 1, closed := false },
            { buf := [], cap := 1, closed := false }]).subscribe 0).subscribe 1

/-- A one-object heap whose only map holds one binding, with the store's
results reference pointing at it. -/
def demoHeap : MapHeap :=
  { maps := [[("a", demoResult "a" 0)]] }

/-- A concrete REST monitor. -/
def demoRest : RESTMonitor :=
  NewRESTMonitor "api" "http://x" "" "5s"

/-- A concrete quality monitor running `make lint`. -/
def demoQual : QualityMonitor :=
  { name := "lint", command := "make", args := ["lint"], timeoutRepr := "30s" }

/-- A system with one subscription (watcher 0 forwarding to subscriber
channel 0 of capacity 1), one stored result, and one pending notification. -/
def demoForward : Sys :=
  { store := { results := [("a", demoResult "a" 5)], history := []
               watchers := [0] }
    wheap := [{ buf := [{ name := "a", result := demoResult "a" 5 }]
                cap := 10, closed := false }]
    sheap := [{ buf := [], cap := 1, closed := false }]
    forwarders := [(0, 0)] }

/-- A system with two watchers: watcher 0 full (capacity 1, one pending
update), watcher 1 with room. -/
def demoFull : Sys :=
  { store := { results := [], history := [], watchers := [0, 1] }
    wheap := [{ buf := [{ name := "x", result := demoResult "x" 0 }]
                cap := 1, closed := false },
              { buf := [], cap := 10, closed := false }]
    sheap := [], forwarders := [] }

/-- A concrete quality monitor tagged as golangci-lint directly. -/
def demoQualDirect : QualityMonitor :=
  { name := "lint2", command := "golangci-lint", args := ["run"], timeoutRepr := "30s" }

/-- A concrete untagged quality monitor. -/
def demoQualFree : QualityMonitor :=
  { name := "test", command := "go", args := ["test"], timeoutRepr := "30s" }

/-! ### Helper lemmas about the Go-map model -/

theorem mapGet_mapSet_self {V : Type} (m : GoMap V) (k : String) (v : V) :
    mapGet (mapSet m k v) k = some v := by
  induction m with
  | nil => simp [mapSet, mapGet]
  | cons hd tl ih =>
      obtain ⟨k', v'⟩ := hd
      by_cases hk : k' = k
      · simp [mapSet, hk, mapGet]
      · simp [mapSet, hk, mapGet, ih]

theorem mapGet_mapSet_ne {V : Type} (m : GoMap V) {k k' : String} (v : V)
    (hne : k' ≠ k) : mapGet (mapSet m k' v) k = mapGet m k := by
  induction m with
  | nil => simp [mapSet, mapGet, hne]
  | cons hd tl ih =>
      obtain ⟨k0, v0⟩ := hd
      by_cases hk : k0 = k'
      · subst hk
        simp [mapSet, mapGet, hne]
      · simp only [mapSet, if_neg hk]
        by_cases hk2 : k0 = k
        · simp [mapGet, hk2]
        · simp [mapGet, hk2, ih]

theorem keys_mapSet {V : Type} (m : GoMap V) (k : String) (v : V) :
    ((mapSet m k v).map Prod.fst) =
      if k ∈ m.map Prod.fst then m.map Prod.fst else m.map Prod.fst ++ [k] := by
  induction m with
  | nil => simp [mapSet]
  | cons hd tl ih =>
      obtain ⟨k0, v0⟩ := hd
      by_cases hk : k0 = k
      · simp [mapSet, hk]
      · simp only [mapSet, if_neg hk, List.map_cons]
        rw [ih]
        by_cases hmem : k ∈ tl.map Prod.fst
        · simp [hmem, Ne.symm hk]
        · simp [hmem, Ne.symm hk]

theorem keysNodup_mapSet {V : Type} (m : GoMap V) (k : String) (v : V)
    (h : keysNodup m) : keysNodup (mapSet m k v) := by
  unfold keysNodup at *
  rw [keys_mapSet]
  by_cases hmem : k ∈ m.map Prod.fst
  · simpa [hmem] using h
  · simpa [hmem, List.nodup_append] using h

theorem mapGet_eq_none_of_not_mem_keys {V : Type} (m : GoMap V) (k : String)
    (h : k ∉ m.map Prod.fst) : mapGet m k = none := by
  induction m with
  | nil => rfl
  | cons hd tl ih =>
      obtain ⟨k0, v0⟩ := hd
      simp only [List.map_cons, List.mem_cons] at h
      push_neg at h
      simp [mapGet, Ne.symm h.1, ih h.2]

theorem mapGet_copyLoop (m acc : Snapshot) (k : String) (h : keysNodup m) :
    mapGet (copyLoop m acc) k =
      if k ∈ m.map Prod.fst then mapGet m k else mapGet acc k := by
  induction m generalizing acc with
  | nil => simp [copyLoop]
  | cons hd tl ih =>
      obtain ⟨k0, v0⟩ := hd
      unfold keysNodup at h
      simp only [List.map_cons, List.nodup_cons] at h
      rw [copyLoop, ih _ h.2]
      by_cases hk : k0 = k
      · subst hk
        simp [mapGet, h.1, mapGet_mapSet_self]
      · by_cases hmem : k ∈ tl.map Prod.fst
        · simp [mapGet, hk, hmem]
        · simp [mapGet, hk, Ne.symm hk, hmem, mapGet_mapSet_ne _ _ hk]

/-! ### Helper lemma: the two failure messages of the command probe differ -/

theorem cmdTimeoutMsg_ne_failMsg (a b : String) :
    "Command timed out after " ++ a ≠ "Command failed: " ++ b := by
  intro h
  have hd : ("Command timed out after " ++ a).data =
      ("Command failed: " ++ b).data := by rw [h]
  rw [String.data_append, String.data_append] at hd
  have h1 : (("Command timed out after ").data ++ a.data)[8]? = some 't' := by
    rw [List.getElem?_append, if_pos (by decide)]
    decide
  have h2 : (("Command failed: ").data ++ b.data)[8]? = some 'f' := by
    rw [List.getElem?_append, if_pos (by decide)]
    decide
  rw [hd, h2] at h1
  simp at h1

/-! ### Claims about the REST probe -/

/-- C5: a network-probe Check receiving an HTTP response classifies
2xx/3xx as ok, 4xx as warn, 5xx as fail; transport failure or deadline
expiry also yields fail; in particular HTTP 503 yields fail with
metadata status_code 503. -/
theorem C5_rest_status_classification (m : RESTMonitor) (ts dur : Nat)
    (durRepr e : String) (code : Nat) :
    ((200 ≤ code ∧ code < 400) →
      (m.check (.response code) ts dur durRepr).status = .ok) ∧
    ((400 ≤ code ∧ code < 500) →
      (m.check (.response code) ts dur durRepr).status = .warn) ∧
    ((500 ≤ code ∧ code < 600) →
      (m.check (.response code) ts dur durRepr).status = .fail) ∧
    (m.check .timeoutErr ts dur durRepr).status = .fail ∧
    (m.check (.transportErr e) ts dur durRepr).status = .fail ∧
    (m.check (.response 503) ts dur durRepr).status = .fail ∧
    metaGet (m.check (.response 503) ts dur durRepr).metadata "status_code" =
      some (.int 503) := by
  refine ⟨?_, ?_, ?_, rfl, rfl, ?_, ?_⟩
  · intro h
    simp only [RESTMonitor.check]
    rw [if_pos h]
  · intro h
    simp only [RESTMonitor.check]
    rw [if_neg (by omega), if_pos h]
  · intro h
    simp only [RESTMonitor.check]
    rw [if_neg (by omega), if_neg (by omega)]
  · simp only [RESTMonitor.check]
    rw [if_neg (by omega), if_neg (by omega)]
  · simp only [RESTMonitor.check]
    rw [if_neg (by omega), if_neg (by omega)]
    simp only [metaGet]
    exact mapGet_mapSet_self _ _ _

/-- Witness for C5 at concrete status codes 204, 404 and 503. -/
theorem C5_witness :
    ((200 ≤ 204 ∧ 204 < 400) ∧
      (demoRest.check (.response 204) 0 1 "1ms").status = .ok) ∧
    ((400 ≤ 404 ∧ 404 < 500) ∧
      (demoRest.check (.response 404) 0 1 "1ms").status = .warn) ∧
    ((500 ≤ 503 ∧ 503 < 600) ∧
      (demoRest.check (.response 503) 0 1 "1ms").status = .fail) := by
  refine ⟨⟨by omega, ?_⟩, ⟨by omega, ?_⟩, ⟨by omega, ?_⟩⟩
  · exact (C5_rest_status_classification demoRest 0 1 "1ms" "" 204).1 (by omega)
  · exact (C5_rest_status_classification demoRest 0 1 "1ms" "" 404).2.1 (by omega)
  · exact (C5_rest_status_classification demoRest 0 1 "1ms" "" 503).2.2.1 (by omega)

/-- C6 counterexample: when building the request fails, the Result carries a
nil metadata map — in particular no "url" key — contradicting the claim that
the resolved target URL is present in that branch too. -/
theorem C6_counterexample :
    metaGet ((demoRest.check (.reqBuildErr "parse error") 0 1 "1ms")).metadata
      "url" = none ∧
    ((demoRest.check (.reqBuildErr "parse error") 0 1 "1ms")).metadata = none :=
  ⟨rfl, rfl⟩

/-- C6 (amended): the Result's metadata includes the resolved target URL
(base URL ++ health path) in every branch except request-build failure, where
the Result carries no metadata at all; whenever a response was received the
metadata also includes the numeric status code. -/
theorem C6_rest_metadata (m : RESTMonitor) (ts dur : Nat) (durRepr e : String)
    (code : Nat) :
    (m.check (.reqBuildErr e) ts dur durRepr).metadata = none ∧
    metaGet (m.check .timeoutErr ts dur durRepr).metadata "url" =
      some (.str (m.url ++ m.health)) ∧
    metaGet (m.check (.transportErr e) ts dur durRepr).metadata "url" =
      some (.str (m.url ++ m.health)) ∧
    metaGet (m.check (.response code) ts dur durRepr).metadata "url" =
      some (.str (m.url ++ m.health)) ∧
    metaGet (m.check (.response code) ts dur durRepr).metadata "status_code" =
      some (.int code) := by
  refine ⟨rfl, ?_, ?_, ?_, ?_⟩
  · simp only [RESTMonitor.check, metaGet]
    rw [mapGet_mapSet_ne _ _ (by decide), mapGet_mapSet_self]
  · simp only [RESTMonitor.check, metaGet]
    rw [mapGet_mapSet_ne _ _ (by decide), mapGet_mapSet_self]
  · simp only [RESTMonitor.check]
    split
    · simp only [metaGet]
      rw [mapGet_mapSet_ne _ _ (by decide), mapGet_mapSet_ne _ _ (by decide),
        mapGet_mapSet_self]
    · split <;>
        · simp only [metaGet]
          rw [mapGet_mapSet_ne _ _ (by decide), mapGet_mapSet_ne _ _ (by decide),
            mapGet_mapSet_self]
  · simp only [RESTMonitor.check]
    split
    · simp only [metaGet]
      rw [mapGet_mapSet_self]
    · split <;>
        · simp only [metaGet]
          rw [mapGet_mapSet_self]

/-! ### Claims about the command probe -/

/-- C7: a command-probe Check classifies a zero exit as ok; a non-zero exit as
fail with the exit code in metadata (in particular exit 2); and deadline
expiry as fail with a timeout message distinct from the non-zero-exit
message. -/
theorem C7_quality_exit_classification (m : QualityMonitor) (ts dur : Nat)
    (durRepr so se e : String) (code : Int) :
    (m.check (.success so se) ts dur durRepr).status = .ok ∧
    (m.check (.exitErr code e so se) ts dur durRepr).status = .fail ∧
    metaGet (m.check (.exitErr code e so se) ts dur durRepr).metadata
      "exit_code" = some (.int code) ∧
    (m.check (.exitErr 2 e so se) ts dur durRepr).status = .fail ∧
    metaGet (m.check (.exitErr 2 e so se) ts dur durRepr).metadata
      "exit_code" = some (.int 2) ∧
    (m.check (.timeoutErr so se) ts dur durRepr).status = .fail ∧
    (∀ e', (m.check (.timeoutErr so se) ts dur durRepr).message ≠
      (m.check (.exitErr code e' so se) ts dur durRepr).message) := by
  refine ⟨rfl, rfl, ?_, rfl, ?_, rfl, ?_⟩
  · simp only [QualityMonitor.check, metaGet]
    exact mapGet_mapSet_self _ _ _
  · simp only [QualityMonitor.check, metaGet]
    exact mapGet_mapSet_self _ _ _
  · intro e'
    simp only [QualityMonitor.check]
    exact cmdTimeoutMsg_ne_failMsg m.timeoutRepr e'

/-- C8 counterexample: a run that fails by deadline expiry with non-empty
captured stderr does not get a "stderr" metadata key — the timeout branch
returns before stderr is attached, contradicting the claim's "including runs
that fail by deadline expiry". -/
theorem C8_counterexample :
    (demoQual.check (.timeoutErr "" "boom") 0 1 "1ms").status = .fail ∧
    0 < ("boom" : String).utf8ByteSize ∧
    metaGet (demoQual.check (.timeoutErr "" "boom") 0 1 "1ms").metadata
      "stderr" = none := by
  exact ⟨rfl, by decide, rfl⟩

/-- C8 (amended): across every run, captured stdout is attached to metadata
only when its size is below the fixed 1024-byte threshold — failing runs
(non-zero exit, other error, deadline expiry) never attach an "output" key,
and a successful run attaching one has stdout below the threshold; captured
stderr is attached in every failing run in which it is non-empty except runs
that fail by deadline expiry, which never have stderr attached. -/
theorem C8_quality_output_stderr (m : QualityMonitor) (ts dur : Nat)
    (durRepr so se e : String) (code : Int) :
    (∀ v, metaGet (m.check (.success so se) ts dur durRepr).metadata "output" =
        some v → so.utf8ByteSize < 1024) ∧
    metaGet (m.check (.exitErr code e so se) ts dur durRepr).metadata
      "output" = none ∧
    metaGet (m.check (.otherErr e so se) ts dur durRepr).metadata
      "output" = none ∧
    metaGet (m.check (.timeoutErr so se) ts dur durRepr).metadata
      "output" = none ∧
    (0 < se.utf8ByteSize →
      metaGet (m.check (.exitErr code e so se) ts dur durRepr).metadata
        "stderr" = some (.str se)) ∧
    (0 < se.utf8ByteSize →
      metaGet (m.check (.otherErr e so se) ts dur durRepr).metadata
        "stderr" = some (.str se)) ∧
    metaGet (m.check (.timeoutErr so se) ts dur durRepr).metadata
      "stderr" = none := by
  refine ⟨?_, ?_, ?_, ?_, ?_, ?_, ?_⟩
  · intro v h
    by_cases hc : so.utf8ByteSize > 0 ∧ so.utf8ByteSize < 1024
    · exact hc.2
    · exfalso
      simp only [QualityMonitor.check, metaGet] at h
      rw [if_neg hc, mapGet_mapSet_ne _ _ (by decide)] at h
      simp [mapGet] at h
  · simp only [QualityMonitor.check, metaGet]
    rw [mapGet_mapSet_ne _ _ (by decide)]
    split
    · rw [mapGet_mapSet_ne _ _ (by decide), mapGet_mapSet_ne _ _ (by decide)]
      rfl
    · rw [mapGet_mapSet_ne _ _ (by decide)]
      rfl
  · simp only [QualityMonitor.check, metaGet]
    split
    · rw [mapGet_mapSet_ne _ _ (by decide), mapGet_mapSet_ne _ _ (by decide)]
      rfl
    · rw [mapGet_mapSet_ne _ _ (by decide)]
      rfl
  · simp only [QualityMonitor.check, metaGet]
    rw [mapGet_mapSet_ne _ _ (by decide)]
    rfl
  · intro hse
    simp only [QualityMonitor.check, metaGet]
    rw [mapGet_mapSet_ne _ _ (by decide), if_pos hse, mapGet_mapSet_self]
  · intro hse
    simp only [QualityMonitor.check, metaGet]
    rw [if_pos hse, mapGet_mapSet_self]
  · simp only [QualityMonitor.check, metaGet]
    rw [mapGet_mapSet_ne _ _ (by decide)]
    rfl

/-- Witness for C8 at concrete runs: a successful run attaching 2 bytes of
stdout (below the threshold), and an exit-2 run attaching stderr "boom". -/
theorem C8_witness :
    ("hi" : String).utf8ByteSize < 1024 ∧
    0 < ("boom" : String).utf8ByteSize ∧
    metaGet (demoQual.check (.exitErr 2 "exit status 2" "" "boom") 0 1 "1ms").metadata
      "stderr" = some (.str "boom") := by
  refine ⟨?_, by decide, ?_⟩
  · exact (C8_quality_output_stderr demoQual 0 1 "1ms" "hi" "" "err" 0).1
      (.str "hi") (by decide)
  · exact (C8_quality_output_stderr demoQual 0 1 "1ms" "" "boom"
      "exit status 2" 2).2.2.2.2.1 (by decide)

/-! ### Claim about `GetAll` aliasing -/

/-- C3: `GetAll` allocates a fresh map object and copies the current results
into it, so the returned reference never aliases internal storage: the copy
reads back binding-for-binding like the original, and overwriting the returned
object with any mutated mapping leaves every subsequent `Get` unchanged. -/
theorem C3_getAll_independent_copy (h : MapHeap) (s : StoreRef)
    (hv : s.resultsRef < h.maps.length) :
    (getAllRef h s).2 ≠ s.resultsRef ∧
    heapRead (getAllRef h s).1 (getAllRef h s).2 =
      copyLoop (heapRead h s.resultsRef) [] ∧
    (keysNodup (heapRead h s.resultsRef) → ∀ k,
      mapGet (heapRead (getAllRef h s).1 (getAllRef h s).2) k =
        mapGet (heapRead h s.resultsRef) k) ∧
    (∀ (mutated : Snapshot) (name : String),
      getRef (heapWrite (getAllRef h s).1 (getAllRef h s).2 mutated) s name =
        getRef h s name) := by
  have hfresh : heapRead (getAllRef h s).1 (getAllRef h s).2 =
      copyLoop (heapRead h s.resultsRef) [] := by
    simp [getAllRef, heapRead, List.getElem?_append]
  refine ⟨by simp only [getAllRef]; omega, hfresh, ?_, ?_⟩
  · intro hnd k
    rw [hfresh, mapGet_copyLoop _ _ _ hnd]
    by_cases hmem : k ∈ (heapRead h s.resultsRef).map Prod.fst
    · simp [hmem]
    · simp [hmem, mapGet_eq_none_of_not_mem_keys _ _ hmem, mapGet]
  · intro mutated name
    simp only [getRef, heapWrite, getAllRef, heapRead]
    rw [List.getElem?_set_ne (by omega), List.getElem?_append, if_pos hv]

/-- Witness for C3 on a one-binding heap: the fresh reference differs from the
store's, and mutating the returned object to the empty map leaves `Get`
unchanged. -/
theorem C3_witness :
    (0 : Nat) < demoHeap.maps.length ∧
    (getAllRef demoHeap ⟨0⟩).2 ≠ (0 : Nat) ∧
    getRef (heapWrite (getAllRef demoHeap ⟨0⟩).1 (getAllRef demoHeap ⟨0⟩).2 [])
      ⟨0⟩ "a" = getRef demoHeap ⟨0⟩ "a" := by
  refine ⟨by decide, ?_, ?_⟩
  · exact (C3_getAll_independent_copy demoHeap ⟨0⟩ (by decide)).1
  · exact (C3_getAll_independent_copy demoHeap ⟨0⟩ (by decide)).2.2.2 [] "a"

/-! ### Helper lemmas about history truncation -/

theorem truncHist_eq_takeLast (l : List HistoryEntry) :
    truncHist l = takeLast 100 l := by
  unfold truncHist takeLast
  split
  · rfl
  · have h0 : l.length - 100 = 0 := by omega
    rw [h0, List.drop_zero]

theorem takeLast_length_le {α : Type} (n : Nat) (l : List α) :
    (takeLast n l).length ≤ n := by
  simp only [takeLast, List.length_drop]
  omega

theorem takeLast_takeLast_append {α : Type} (n : Nat) (a b : List α) :
    takeLast n (takeLast n a ++ b) = takeLast n (a ++ b) := by
  rcases le_or_lt a.length n with hle | hlt
  · have ha : takeLast n a = a := by
      have h0 : a.length - n = 0 := by omega
      rw [takeLast, h0, List.drop_zero]
    rw [ha]
  · simp only [takeLast, List.length_append, List.length_drop,
      List.drop_append_eq_append_drop, List.drop_drop]
    congr 1
    · congr 1
      omega
    · congr 1
      omega

/-! ### Helper lemmas about `Update`'s watcher notification -/

theorem trySend_open (c : Chan StateUpdate) (u : StateUpdate)
    (hopen : c.closed = false) :
    c.trySend u = some (if c.buf.length < c.cap
      then { c with buf := c.buf ++ [u] } else c) := by
  simp only [Chan.trySend, hopen, Bool.false_eq_true, if_false]
  split <;> rfl

theorem notifyAll_spec (ids : List Nat) (wheap : List (Chan StateUpdate))
    (u : StateUpdate) (hnd : ids.Nodup)
    (hok : ∀ i ∈ ids, ∃ c, wheap[i]? = some c ∧ c.closed = false) :
    ∃ wheap', notifyAll wheap ids u = some wheap' ∧
      wheap'.length = wheap.length ∧
      (∀ j, j ∉ ids → wheap'[j]? = wheap[j]?) ∧
      (∀ i ∈ ids, ∀ c, wheap[i]? = some c →
        wheap'[i]? = some (if c.buf.length < c.cap
          then { c with buf := c.buf ++ [u] } else c)) := by
  induction ids generalizing wheap with
  | nil =>
      exact ⟨wheap, rfl, rfl, fun j _ => rfl, by simp⟩
  | cons i rest ih =>
      obtain ⟨hnotin, hndrest⟩ := List.nodup_cons.mp hnd
      obtain ⟨c, hc, hopen⟩ := hok i (List.mem_cons_self i rest)
      have hilt : i < wheap.length := (List.getElem?_eq_some.mp hc).1
      have hsend := trySend_open c u hopen
      have hok' : ∀ j ∈ rest, ∃ cc, (wheap.set i (if c.buf.length < c.cap
          then { c with buf := c.buf ++ [u] } else c))[j]? = some cc ∧
          cc.closed = false := by
        intro j hj
        have hji : i ≠ j := fun h => hnotin (h ▸ hj)
        rw [List.getElem?_set_ne hji]
        exact hok j (List.mem_cons_of_mem i hj)
      obtain ⟨wheap', heq, hlen, hout, hin⟩ :=
        ih (wheap.set i (if c.buf.length < c.cap
          then { c with buf := c.buf ++ [u] } else c)) hndrest hok'
      refine ⟨wheap', ?_, ?_, ?_, ?_⟩
      · simp only [notifyAll, hc, hsend]
        exact heq
      · rw [hlen, List.length_set]
      · intro j hj
        have hj1 : j ≠ i := fun h => hj (h ▸ List.mem_cons_self i rest)
        have hj2 : j ∉ rest := fun h => hj (List.mem_cons_of_mem i h)
        rw [hout j hj2, List.getElem?_set_ne (Ne.symm hj1)]
      · intro i' hi' cc hcc
        rcases List.mem_cons.mp hi' with hii | hirest
        · subst hii
          have hceq : cc = c := by
            rw [hc] at hcc
            exact (Option.some.inj hcc).symm
          subst hceq
          rw [hout i' hnotin, List.getElem?_set_self hilt]
        · have hii' : i ≠ i' := fun h => hnotin (h ▸ hirest)
          refine hin i' hirest cc ?_
          rw [List.getElem?_set_ne hii']
          exact hcc

theorem watchersOk_elim (sys : Sys) (hok : watchersOk sys = true) :
    ∀ i ∈ sys.store.watchers, ∃ c, sys.wheap[i]? = some c ∧
      c.closed = false := by
  intro i hi
  rw [watchersOk, List.all_eq_true] at hok
  have := hok i hi
  cases hg : sys.wheap[i]? with
  | none => rw [hg] at this; simp at this
  | some c =>
      rw [hg] at this
      simp only [Bool.not_eq_true'] at this
      exact ⟨c, rfl, this⟩

/-- Full description of one `Update` call from a well-formed system:
it succeeds, updates the results map and the truncated history, leaves the
watcher list, the subscriber heap and the forwarders alone, and delivers the
notification to exactly the watchers that have room. -/
theorem update_spec (sys : Sys) (r : Result) (now : Nat)
    (hnd : sys.store.watchers.Nodup) (hok : watchersOk sys = true) :
    ∃ sys', sys.update r now = some sys' ∧
      sys'.store.results = mapSet sys.store.results r.name r ∧
      sys'.store.history = mapSet sys.store.history r.name
        (truncHist ((mapGet sys.store.history r.name).getD [] ++
          [{ result := r, timestamp := now }])) ∧
      sys'.store.watchers = sys.store.watchers ∧
      sys'.sheap = sys.sheap ∧
      sys'.forwarders = sys.forwarders ∧
      sys'.wheap.length = sys.wheap.length ∧
      (∀ j, j ∉ sys.store.watchers → sys'.wheap[j]? = sys.wheap[j]?) ∧
      (∀ i ∈ sys.store.watchers, ∀ c, sys.wheap[i]? = some c →
        sys'.wheap[i]? = some (if c.buf.length < c.cap
          then { c with buf := c.buf ++ [{ name := r.name, result := r }] }
          else c)) ∧
      watchersOk sys' = true := by
  obtain ⟨wheap', heq, hlen, hout, hin⟩ :=
    notifyAll_spec sys.store.watchers sys.wheap
      { name := r.name, result := r } hnd (watchersOk_elim sys hok)
  refine ⟨{ sys with
      store := { sys.store with
        results := mapSet sys.store.results r.name r
        history := mapSet sys.store.history r.name
          (truncHist ((mapGet sys.store.history r.name).getD [] ++
            [{ result := r, timestamp := now }])) }
      wheap := wheap' }, ?_, rfl, rfl, rfl, rfl, rfl, hlen, hout, hin, ?_⟩
  · simp only [Sys.update, heq]
  · rw [watchersOk, List.all_eq_true]
    intro i hi
    obtain ⟨c, hc, hopen⟩ := watchersOk_elim sys hok i hi
    simp only at hi
    rw [hin i hi c hc]
    by_cases hroom : c.buf.length < c.cap
    · simp [hroom, hopen]
    · simp [hroom, hopen]

/-! ### Claims about `Update` -/

/-- C2: from any well-formed store state, `Update` completes (never blocks)
even when some live subscriber's queue is full: that subscriber's
notification is dropped (its channel is untouched), the current-result map
and the history are still updated, and every other subscriber with room
still receives the notification. -/
theorem C2_update_nonblocking (sys : Sys) (r : Result) (now : Nat)
    (iFull : Nat) (cFull : Chan StateUpdate)
    (hnd : sys.store.watchers.Nodup) (hok : watchersOk sys = true)
    (hmem : iFull ∈ sys.store.watchers)
    (hc : sys.wheap[iFull]? = some cFull)
    (hfull : cFull.cap ≤ cFull.buf.length) :
    ∃ sys', sys.update r now = some sys' ∧
      sys'.wheap[iFull]? = some cFull ∧
      mapGet sys'.store.results r.name = some r ∧
      sys'.store.history = mapSet sys.store.history r.name
        (truncHist ((mapGet sys.store.history r.name).getD [] ++
          [{ result := r, timestamp := now }])) ∧
      (∀ i ∈ sys.store.watchers, ∀ c, sys.wheap[i]? = some c →
        c.buf.length < c.cap →
        sys'.wheap[i]? = some { c with
          buf := c.buf ++ [{ name := r.name, result := r }] }) := by
  obtain ⟨sys', heq, hres, hhist, hw, hs, hf, hlen, hout, hin, hok'⟩ :=
    update_spec sys r now hnd hok
  refine ⟨sys', heq, ?_, ?_, hhist, ?_⟩
  · rw [hin iFull hmem cFull hc, if_neg (by omega)]
  · rw [hres]
    exact mapGet_mapSet_self _ _ _
  · intro i hi c hci hroom
    rw [hin i hi c hci, if_pos hroom]

/-- Witness for C2: watcher 0 of `demoFull` is full, yet `Update` succeeds,
leaves watcher 0 untouched and stores the new result. -/
theorem C2_witness :
    demoFull.store.watchers.Nodup ∧ watchersOk demoFull = true ∧
    (0 : Nat) ∈ demoFull.store.watchers ∧
    demoFull.wheap[(0 : Nat)]? =
      some { buf := [{ name := "x", result := demoResult "x" 0 }], cap := 1, closed := false } ∧
    (∃ sys', demoFull.update (demoResult "a" 3) 3 = some sys' ∧
      sys'.wheap[(0 : Nat)]? =
        some { buf := [{ name := "x", result := demoResult "x" 0 }], cap := 1, closed := false } ∧
      mapGet sys'.store.results "a" = some (demoResult "a" 3)) := by
  refine ⟨by decide, rfl, by decide, rfl, ?_⟩
  obtain ⟨sys', h1, h2, h3, _, _⟩ :=
    C2_update_nonblocking demoFull (demoResult "a" 3) 3 0
      { buf := [{ name := "x", result := demoResult "x" 0 }], cap := 1, closed := false }
      (by decide) rfl (by decide) rfl (by decide)
  exact ⟨sys', h1, h2, h3⟩

/-- Stepping a sequence of same-name `Update` calls: the run succeeds, keeps
the watcher structure well formed, and produces the last result plus the
100-capped concatenated history. -/
theorem applyUpdates_spec (us : List (Result × Nat)) (sys : Sys) (name : String)
    (hnd : sys.store.watchers.Nodup) (hok : watchersOk sys = true)
    (hall : ∀ u ∈ us, (Prod.fst u).name = name) :
    ∃ sys', sys.applyUpdates us = some sys' ∧
      sys'.store.watchers = sys.store.watchers ∧
      watchersOk sys' = true ∧
      (keysNodup sys.store.results → keysNodup sys'.store.results) ∧
      (us = [] → sys' = sys) ∧
      (∀ hne : us ≠ [],
        mapGet sys'.store.results name = some ((us.getLast hne).1) ∧
        (mapGet sys'.store.history name).getD [] =
          takeLast 100 ((mapGet sys.store.history name).getD [] ++
            us.map (fun p => { result := p.1, timestamp := p.2 }))) := by
  induction us generalizing sys with
  | nil =>
      exact ⟨sys, rfl, rfl, hok, fun h => h, fun _ => rfl,
        fun hne => absurd rfl hne⟩
  | cons u rest ih =>
      obtain ⟨r, t⟩ := u
      obtain ⟨sys1, heq1, hres1, hhist1, hw1, hs1, hf1, hlen1, hout1, hin1, hok1⟩ :=
        update_spec sys r t hnd hok
      have hnd1 : sys1.store.watchers.Nodup := hw1 ▸ hnd
      have hall1 : ∀ u ∈ rest, (Prod.fst u).name = name :=
        fun u hu => hall u (List.mem_cons_of_mem _ hu)
      obtain ⟨sys', heq', hw', hok', hkn', hnil', hlast'⟩ :=
        ih sys1 hnd1 hok1 hall1
      have hname : r.name = name := hall (r, t) (List.mem_cons_self _ _)
      have hh1 : (mapGet sys1.store.history name).getD [] =
          takeLast 100 ((mapGet sys.store.history name).getD [] ++
            [{ result := r, timestamp := t }]) := by
        rw [hhist1, hname, mapGet_mapSet_self]
        simp [truncHist_eq_takeLast]
      refine ⟨sys', ?_, by rw [hw', hw1], hok', ?_, ?_, ?_⟩
      · simp only [Sys.applyUpdates, heq1]
        exact heq'
      · intro hkeys
        exact hkn' (by rw [hres1]; exact keysNodup_mapSet _ _ _ hkeys)
      · intro habs
        exact absurd habs (List.cons_ne_nil _ _)
      · intro hne
        by_cases hrest : rest = []
        · subst hrest
          have hsys' : sys' = sys1 := hnil' rfl
          subst hsys'
          constructor
          · rw [hres1, ← hname, mapGet_mapSet_self]
            rfl
          · rw [hh1]
            simp
        · obtain ⟨hlastres, hlasthist⟩ := hlast' hrest
          constructor
          · rw [hlastres, List.getLast_cons hrest]
          · rw [hlasthist, hh1, takeLast_takeLast_append]
            congr 1
            simp [List.append_assoc]

/-- C1: after any nonempty sequence of `Update` calls for the same name,
`Get` and `GetAll` both return exactly the last updated Result, and the
history for that name is the last-100 suffix of all appended entries (so it
never exceeds 100 entries and evicts oldest first). -/
theorem C1_latest_result_and_capped_history (sys : Sys) (name : String)
    (us : List (Result × Nat))
    (hnd : sys.store.watchers.Nodup) (hok : watchersOk sys = true)
    (hkeys : keysNodup sys.store.results)
    (hall : ∀ u ∈ us, (Prod.fst u).name = name) (hne : us ≠ []) :
    ∃ sys', sys.applyUpdates us = some sys' ∧
      sys'.get name = some ((us.getLast hne).1) ∧
      mapGet sys'.getAll name = some ((us.getLast hne).1) ∧
      (mapGet sys'.store.history name).getD [] =
        takeLast 100 ((mapGet sys.store.history name).getD [] ++
          us.map (fun p => { result := p.1, timestamp := p.2 })) ∧
      ((mapGet sys'.store.history name).getD []).length ≤ 100 := by
  obtain ⟨sys', heq, hw, hok', hkn, hnil, hlast⟩ :=
    applyUpdates_spec us sys name hnd hok hall
  obtain ⟨hres, hhist⟩ := hlast hne
  have hkeys' := hkn hkeys
  refine ⟨sys', heq, hres, ?_, hhist, ?_⟩
  · rw [Sys.getAll, mapGet_copyLoop _ _ _ hkeys']
    have hmem : name ∈ sys'.store.results.map Prod.fst := by
      by_contra hmem
      rw [mapGet_eq_none_of_not_mem_keys _ _ hmem] at hres
      cases hres
    rw [if_pos hmem]
    exact hres
  · rw [hhist]
    exact takeLast_length_le _ _

/-- Witness for C1: two updates for "a" from a fresh store; `Get` returns the
second Result and the history has two (≤ 100) entries. -/
theorem C1_witness :
    ((newSys []).store.watchers.Nodup ∧ watchersOk (newSys []) = true ∧
      keysNodup (newSys []).store.results ∧
      [(demoResult "a" 0, 0), (demoResult "a" 1, 1)] ≠
        ([] : List (Result × Nat))) ∧
    (∃ sys', (newSys []).applyUpdates
        [(demoResult "a" 0, 0), (demoResult "a" 1, 1)] = some sys' ∧
      sys'.get "a" = some (demoResult "a" 1) ∧
      mapGet sys'.getAll "a" = some (demoResult "a" 1) ∧
      ((mapGet sys'.store.history "a").getD []).length ≤ 100) := by
  refine ⟨⟨by decide, rfl, List.nodup_nil, by decide⟩, ?_⟩
  obtain ⟨sys', h1, h2, h3, _, h5⟩ :=
    C1_latest_result_and_capped_history (newSys []) "a"
      [(demoResult "a" 0, 0), (demoResult "a" 1, 1)]
      (by decide) rfl List.nodup_nil (by decide) (by decide)
  exact ⟨sys', h1, h2, h3, h5⟩

/-! ### Claims about `Unsubscribe` -/

theorem closeChan_open {α : Type} (c : Chan α) (h : c.closed = false) :
    c.closeChan = some { c with closed := true } := by
  simp [Chan.closeChan, h]

theorem closeChan_closed {α : Type} (c : Chan α) (h : c.closed = true) :
    c.closeChan = none := by
  simp [Chan.closeChan, h]

/-- A second `Unsubscribe` with a channel that is already closed always
faults (it ends in `close` of a closed channel). -/
theorem unsubscribe_of_closed (sys : Sys) (chId : Nat) (c : Chan Snapshot)
    (hc : sys.sheap[chId]? = some c) (hcl : c.closed = true) :
    sys.unsubscribe chId = none := by
  simp only [Sys.unsubscribe]
  cases hgl : sys.store.watchers.getLast? with
  | none => simp only [hgl, hc, closeChan_closed c hcl]
  | some lastId =>
      cases hw : sys.wheap[lastId]? with
      | none => simp only [hgl, hw]
      | some w =>
          cases hwcl : w.closeChan with
          | none => simp only [hgl, hw, hwcl]
          | some w' => simp only [hgl, hw, hwcl, hc, closeChan_closed c hcl]

/-- C4 counterexample: `demoSub2` has two live subscriptions — watcher 0
forwarding to subscriber channel 0, watcher 1 to channel 1.  Unsubscribing
channel 0 closes watcher 1 (the other subscription's queue) and leaves
watcher 0 open, and a repeated `Unsubscribe` of the same channel faults
rather than being idempotent. -/
theorem C4_counterexample :
    demoSub2.forwarders = [(0, 0), (1, 1)] ∧
    (Sys.unsubscribe demoSub2 0).map (fun s => s.wheap.map Chan.closed) =
      some [false, true] ∧
    (Sys.unsubscribe demoSub2 0).map (fun s => s.store.watchers) = some [0] ∧
    ((Sys.unsubscribe demoSub2 0).bind (fun s => s.unsubscribe 0)) = none := by
  decide

/-- C4 (amended): `Unsubscribe(ch)` removes the most recently added watcher
from the subscriber list and closes that watcher's queue — regardless of
which subscription `ch` belongs to — then closes `ch` itself; it is not
idempotent: a second call with the same channel faults by closing an
already-closed channel. -/
theorem C4_unsubscribe_lifo (sys : Sys) (chId lastId : Nat)
    (w : Chan StateUpdate) (c : Chan Snapshot)
    (hlast : sys.store.watchers.getLast? = some lastId)
    (hw : sys.wheap[lastId]? = some w) (hwopen : w.closed = false)
    (hc : sys.sheap[chId]? = some c) (hcopen : c.closed = false) :
    ∃ sys', sys.unsubscribe chId = some sys' ∧
      sys'.store.watchers = sys.store.watchers.dropLast ∧
      sys'.wheap = sys.wheap.set lastId { w with closed := true } ∧
      sys'.sheap = sys.sheap.set chId { c with closed := true } ∧
      sys'.forwarders = sys.forwarders ∧
      sys'.unsubscribe chId = none := by
  have hlt : chId < sys.sheap.length := (List.getElem?_eq_some.mp hc).1
  refine ⟨{ sys with
      store := { sys.store with watchers := sys.store.watchers.dropLast }
      wheap := sys.wheap.set lastId { w with closed := true }
      sheap := sys.sheap.set chId { c with closed := true } },
    ?_, rfl, rfl, rfl, rfl, ?_⟩
  · simp only [Sys.unsubscribe, hlast, hw, closeChan_open w hwopen, hc,
      closeChan_open c hcopen]
  · refine unsubscribe_of_closed _ chId { c with closed := true } ?_ rfl
    simp only [List.getElem?_set_self hlt]

/-- Witness for C4 at `demoSub2`, unsubscribing subscriber channel 0. -/
theorem C4_witness :
    demoSub2.store.watchers.getLast? = some 1 ∧
    demoSub2.wheap[(1 : Nat)]? = some { buf := [], cap := 10, closed := false } ∧
    demoSub2.sheap[(0 : Nat)]? = some { buf := [], cap := 1, closed := false } ∧
    (∃ sys', demoSub2.unsubscribe 0 = some sys' ∧
      sys'.store.watchers = demoSub2.store.watchers.dropLast ∧
      sys'.unsubscribe 0 = none) := by
  refine ⟨rfl, rfl, rfl, ?_⟩
  obtain ⟨sys', h1, h2, _, _, _, h6⟩ :=
    C4_unsubscribe_lifo demoSub2 0 1
      { buf := [], cap := 10, closed := false }
      { buf := [], cap := 1, closed := false } rfl rfl rfl rfl rfl
  exact ⟨sys', h1, h2, h6⟩

/-! ### Claim about `Subscribe` and its forwarder -/

/-- C10: `Subscribe(ch)` registers a fresh internal watcher queue of capacity
exactly 10 and a forwarder for `(watcher, ch)`; each forwarder iteration pops
one pending notification and attempts a non-blocking send of the *current*
`GetAll` snapshot to the caller's channel, delivering it when there is room
and dropping it when the channel is full — so the caller sees whole-state
snapshots and may see fewer of them than there were `Update` calls. -/
theorem C10_subscribe_snapshot_forwarding (sys : Sys) (chId wid chTo : Nat)
    (w : Chan StateUpdate) (u : StateUpdate) (rest : List StateUpdate)
    (c : Chan Snapshot) :
    ((sys.subscribe chId).wheap[sys.wheap.length]? =
        some { buf := [], cap := 10, closed := false } ∧
      (sys.subscribe chId).store.watchers =
        sys.store.watchers ++ [sys.wheap.length] ∧
      (sys.subscribe chId).forwarders =
        sys.forwarders ++ [(sys.wheap.length, chId)]) ∧
    (sys.wheap[wid]? = some w → w.buf = u :: rest →
      sys.sheap[chTo]? = some c → c.closed = false → c.buf.length < c.cap →
      sys.forwarderStep wid chTo = some { sys with
        wheap := sys.wheap.set wid { w with buf := rest }
        sheap := sys.sheap.set chTo { c with buf := c.buf ++ [sys.getAll] } }) ∧
    (sys.wheap[wid]? = some w → w.buf = u :: rest →
      sys.sheap[chTo]? = some c → c.closed = false → ¬ c.buf.length < c.cap →
      sys.forwarderStep wid chTo = some { sys with
        wheap := sys.wheap.set wid { w with buf := rest } }) := by
  refine ⟨⟨?_, rfl, rfl⟩, ?_, ?_⟩
  · simp only [Sys.subscribe]
    exact List.getElem?_concat_length _ _
  · intro hw hbuf hc hopen hroom
    simp only [Sys.forwarderStep, hw, hbuf, hc, hopen, Bool.false_eq_true,
      if_false, if_pos hroom]
    rfl
  · intro hw hbuf hc hopen hroom
    simp only [Sys.forwarderStep, hw, hbuf, hc, hopen, Bool.false_eq_true,
      if_false, if_neg hroom]

/-- Witness for C10 at `demoForward`: one pending notification, subscriber
channel with room — the forwarder delivers the current snapshot. -/
theorem C10_witness :
    demoForward.wheap[(0 : Nat)]? = some { buf := [{ name := "a", result := demoResult "a" 5 }], cap := 10, closed := false } ∧
    demoForward.sheap[(0 : Nat)]? = some { buf := [], cap := 1, closed := false } ∧
    demoForward.forwarderStep 0 0 = some { demoForward with
      wheap := demoForward.wheap.set 0 { buf := [], cap := 10, closed := false }
      sheap := demoForward.sheap.set 0 { buf := [demoForward.getAll], cap := 1, closed := false } } := by
  refine ⟨rfl, rfl, ?_⟩
  exact (C10_subscribe_snapshot_forwarding demoForward 0 0 0
      { buf := [{ name := "a", result := demoResult "a" 5 }], cap := 10, closed := false }
      { name := "a", result := demoResult "a" 5 } []
      { buf := [], cap := 1, closed := false }).2.1
    rfl rfl rfl rfl (by decide)

/-! ### Claim about the golangci-lint mutex -/

theorem lintInv_init (mons : List QualityMonitor) : LintInv (lintInit mons) := by
  intro i htag hrun
  rw [lintInit] at hrun
  simp only [List.getElem?_replicate] at hrun
  split at hrun
  · cases hrun
  · cases hrun

theorem lintInv_step (s s' : LintSys) (hstep : LintStep s s')
    (hinv : LintInv s) : LintInv s' := by
  cases hstep with
  | startLocked i hp ht hfree =>
      intro j htag hrun
      by_cases hij : j = i
      · subst hij
        rfl
      · simp only [taggedAt] at htag
        rw [List.getElem?_set_ne (fun h => hij h.symm)] at hrun
        have := hinv j htag hrun
        rw [hfree] at this
        cases this
  | startFree i hp ht =>
      intro j htag hrun
      by_cases hij : j = i
      · subst hij
        simp only [taggedAt] at htag ht
        rw [htag] at ht
        cases ht
      · simp only [taggedAt] at htag
        rw [List.getElem?_set_ne (fun h => hij h.symm)] at hrun
        exact hinv j htag hrun
  | finishLocked i hp ht hheld =>
      intro j htag hrun
      by_cases hij : j = i
      · subst hij
        rw [List.getElem?_set_self (List.getElem?_eq_some.mp hp).1] at hrun
        cases hrun
      · simp only [taggedAt] at htag
        rw [List.getElem?_set_ne (fun h => hij h.symm)] at hrun
        have := hinv j htag hrun
        rw [hheld] at this
        exact absurd (Option.some.inj this).symm hij
  | finishFree i hp ht =>
      intro j htag hrun
      by_cases hij : j = i
      · subst hij
        rw [List.getElem?_set_self (List.getElem?_eq_some.mp hp).1] at hrun
        cases hrun
      · simp only [taggedAt] at htag
        rw [List.getElem?_set_ne (fun h => hij h.symm)] at hrun
        exact hinv j htag hrun

theorem lintInv_reachable (mons : List QualityMonitor) (s : LintSys)
    (h : LintReachable mons s) : LintInv s := by
  induction h with
  | refl => exact lintInv_init mons
  | tail _ hstep ih => exact lintInv_step _ _ hstep ih

/-- C9: in every state reachable during a tick, no two checks identified as
golangci-lint are both running their command (the shared mutex serializes
them), while an idle check not so identified can always start running,
whatever the mutex state — it never takes the lock. -/
theorem C9_lint_mutual_exclusion (mons : List QualityMonitor) (s : LintSys)
    (hreach : LintReachable mons s) :
    (∀ i j, i ≠ j → taggedAt s i = some true → taggedAt s j = some true →
      ¬(s.phase[i]? = some .running ∧ s.phase[j]? = some .running)) ∧
    (∀ i, taggedAt s i = some false → s.phase[i]? = some .idle →
      LintStep s { s with phase := s.phase.set i .running }) := by
  constructor
  · intro i j hij htagi htagj ⟨hri, hrj⟩
    have hinv := lintInv_reachable mons s hreach
    have hi := hinv i htagi hri
    have hj := hinv j htagj hrj
    rw [hi] at hj
    exact hij (Option.some.inj hj)
  · intro i htag hidle
    exact LintStep.startFree s i hidle htag

/-- Witness for C9: three checks — `make lint`, `golangci-lint run`, `go
test` — at the initial tick state: the two tagged checks are not both
running, and the untagged one can start. -/
theorem C9_witness :
    taggedAt (lintInit [demoQual, demoQualDirect, demoQualFree]) 0 = some true ∧
    taggedAt (lintInit [demoQual, demoQualDirect, demoQualFree]) 1 = some true ∧
    taggedAt (lintInit [demoQual, demoQualDirect, demoQualFree]) 2 = some false ∧
    ¬((lintInit [demoQual, demoQualDirect, demoQualFree]).phase[(0 : Nat)]? = some .running ∧
      (lintInit [demoQual, demoQualDirect, demoQualFree]).phase[(1 : Nat)]? = some .running) ∧
    LintStep (lintInit [demoQual, demoQualDirect, demoQualFree])
      { lintInit [demoQual, demoQualDirect, demoQualFree] with
        phase := (lintInit [demoQual, demoQualDirect, demoQualFree]).phase.set 2 .running } := by
  refine ⟨by decide, by decide, by decide, ?_, ?_⟩
  · exact (C9_lint_mutual_exclusion [demoQual, demoQualDirect, demoQualFree] _
      Relation.ReflTransGen.refl).1 0 1 (by decide) (by decide) (by decide)
  · exact (C9_lint_mutual_exclusion [demoQual, demoQualDirect, demoQualFree] _
      Relation.ReflTransGen.refl).2 2 (by decide) (by decide)

end WatchNow
